import Mathlib

/-!
Shallow embedding of the investment-partnership core (src/database.py and the
distribution entry point of src/app.py).

Modelling conventions:
* Python floats (SQLite REAL) are modelled as exact rationals `ℚ`; the spec
  declares "simple float arithmetic" and every value in the claims is exact.
* SQLite tables are lists of records; `AUTOINCREMENT` ids are per-table
  counters on the state.
* Every operation runs inside one connection/transaction that commits at the
  end and rolls back on an exception, so an operation is a function
  `DB → Except DBError (DB × result)`: an `Except.error` leaves no new state
  (transactional rollback, nothing persisted).
* `PRAGMA foreign_keys = ON` is set on every connection, so an INSERT whose
  foreign key has no referent raises (modelled as `DBError.integrityError`).
* Python `ValueError`s are split by their role, matching the spec's taxonomy:
  bad input → `validationError`, missing referent reported by the code itself
  → `notFoundError`; a Python `ZeroDivisionError` is `zeroDivisionError`.
* The audit log keeps the `(project_id, operation_type)` pair of each
  `operation_logs` INSERT; the free-text `details` column is presentational.
-/

namespace Invest

set_option maxRecDepth 40000

/-- Python `str.strip()` with no arguments: drop whitespace from both ends
(structurally recursive so that concrete states reduce in the kernel). -/
def dropWS : List Char → List Char
  | [] => []
  | c :: rest => if c.isWhitespace then dropWS rest else c :: rest

/-- Strip both ends of a string, as Python `.strip()` does on ASCII input. -/
def pyStrip (s : String) : String :=
  ⟨(dropWS (dropWS s.data.reverse).reverse)⟩

/-- Error outcomes of an operation (Python exception, transaction rolled back). -/
inductive DBError where
  | validationError
  | notFoundError
  | integrityError
  | zeroDivisionError
  deriving Repr, DecidableEq

/-- Row of the `projects` table. -/
structure Project where
  id : Nat
  name : String
  description : String
  total_investment : ℚ
  deriving Repr, DecidableEq

/-- Row of the `partners` table. -/
structure Partner where
  id : Nat
  project_id : Nat
  name : String
  investment : ℚ
  share_percentage : ℚ
  contact_info : String
  notes : String
  deriving Repr, DecidableEq

/-- Row of the `partner_tiers` table. -/
structure Tier where
  id : Nat
  project_id : Nat
  tier_name : String
  description : String
  management_fee_rate : ℚ
  performance_fee_rate : ℚ
  priority : Int
  deriving Repr, DecidableEq

/-- Row of the `partner_tier_assignments` table. -/
structure Assignment where
  id : Nat
  partner_id : Nat
  tier_id : Nat
  commitment_amount : ℚ
  distribution_share : ℚ
  deriving Repr, DecidableEq

/-- One entry of the `details_json` list stored with a distribution. -/
structure LineItem where
  partner_id : Nat
  partner_name : String
  tier : Option String
  type : String
  amount : ℚ
  percentage : ℚ
  deriving Repr, DecidableEq

/-- Row of the `distributions` table. -/
structure Distribution where
  id : Nat
  project_id : Nat
  total_amount : ℚ
  details : List LineItem
  deriving Repr, DecidableEq

/-- The whole SQLite database. `logs` models `operation_logs` as
`(project_id, operation_type)` pairs. -/
structure DB where
  projects : List Project
  partners : List Partner
  tiers : List Tier
  assignments : List Assignment
  distributions : List Distribution
  logs : List (Nat × String)
  next_project_id : Nat
  next_partner_id : Nat
  next_tier_id : Nat
  next_assignment_id : Nat
  next_distribution_id : Nat
  deriving Repr, DecidableEq

/-- `SELECT SUM(investment) FROM partners WHERE project_id = ?`
(`COALESCE`d to 0 when there is no row, as the code does). -/
def sumInvestments (partners : List Partner) (project_id : Nat) : ℚ :=
  ((partners.filter fun p => p.project_id = project_id).map fun p => p.investment).sum

/-- `InvestmentDB._update_project_total`: store the investment sum on the
project row and recompute every partner's `share_percentage` for that
project — `investment/total*100` when the total is positive, else 0. -/
def update_project_total (db : DB) (project_id : Nat) : DB :=
  let total := sumInvestments db.partners project_id
  let projects := db.projects.map fun pr =>
    if pr.id = project_id then { pr with total_investment := total } else pr
  let partners :=
    if 0 < total then
      db.partners.map fun p =>
        if p.project_id = project_id then
          { p with share_percentage := p.investment / total * 100 }
        else p
    else
      db.partners.map fun p =>
        if p.project_id = project_id then { p with share_percentage := 0 } else p
  { db with projects := projects, partners := partners }

/-- `InvestmentDB.create_project`. -/
def create_project (db : DB) (name description : String) :
    Except DBError (DB × Nat) :=
  if pyStrip name = "" then .error .validationError
  else
    let pr : Project :=
      { id := db.next_project_id, name := pyStrip name,
        description := pyStrip description, total_investment := 0 }
    .ok ({ db with
            projects := db.projects ++ [pr],
            next_project_id := db.next_project_id + 1,
            logs := db.logs ++ [(pr.id, "CREATE_PROJECT")] },
         pr.id)

/-- `InvestmentDB.add_partner`. The investment argument is `Option ℚ` to model
the explicit `None` check; string-to-number parse failures are outside the
embedding. The INSERT's foreign key on `project_id` is enforced
(`PRAGMA foreign_keys = ON`). -/
def add_partner (db : DB) (project_id : Nat) (name : String)
    (investment : Option ℚ) (contact_info notes : String) :
    Except DBError (DB × Nat) :=
  if pyStrip name = "" then .error .validationError
  else
    match investment with
    | none => .error .validationError
    | some inv =>
      if inv < 0 then .error .validationError
      else if db.projects.all fun pr => ¬ pr.id = project_id then
        .error .integrityError
      else
        let p : Partner :=
          { id := db.next_partner_id, project_id := project_id,
            name := pyStrip name, investment := inv, share_percentage := 0,
            contact_info := pyStrip contact_info, notes := pyStrip notes }
        let db1 := { db with
                      partners := db.partners ++ [p],
                      next_partner_id := db.next_partner_id + 1 }
        let db2 := update_project_total db1 project_id
        .ok ({ db2 with logs := db2.logs ++ [(project_id, "ADD_PARTNER")] }, p.id)

/-- Apply the supplied (non-`None`) fields of `update_partner` to one row. -/
def applyPartnerFields (p : Partner) (name : Option String)
    (investment : Option ℚ) (contact_info notes : Option String) : Partner :=
  { p with
    name := match name with | some s => pyStrip s | none => p.name
    investment := match investment with | some q => q | none => p.investment
    contact_info := match contact_info with | some s => pyStrip s | none => p.contact_info
    notes := match notes with | some s => pyStrip s | none => p.notes }

/-- `InvestmentDB.update_partner`: fetch the row (error when missing),
validate the supplied fields, and — only when at least one field was
supplied — apply the UPDATE, recompute the project totals and log. -/
def update_partner (db : DB) (partner_id : Nat) (name : Option String)
    (investment : Option ℚ) (contact_info notes : Option String) :
    Except DBError DB :=
  match db.partners.find? fun p => p.id = partner_id with
  | none => .error .notFoundError
  | some old =>
    if (match name with | some s => decide (pyStrip s = "") | none => false) then
      .error .validationError
    else if (match investment with | some q => decide (q < 0) | none => false) then
      .error .validationError
    else if name.isSome || investment.isSome
        || contact_info.isSome || notes.isSome then
      let db1 := { db with
        partners := db.partners.map fun p =>
          if p.id = partner_id then
            applyPartnerFields p name investment contact_info notes
          else p }
      let db2 := update_project_total db1 old.project_id
      .ok { db2 with logs := db2.logs ++ [(old.project_id, "UPDATE_PARTNER")] }
    else
      -- no field supplied: the code builds an empty update list and skips
      -- the UPDATE, the recompute and the log entry entirely
      .ok db

/-- `InvestmentDB.delete_partner`. Note the code's `if partner:` has no
`else` branch: a missing partner id makes the whole call a silent no-op. -/
def delete_partner (db : DB) (partner_id : Nat) : Except DBError DB :=
  match db.partners.find? fun p => p.id = partner_id with
  | none => .ok db
  | some partner =>
    let count := (db.partners.filter fun p => p.project_id = partner.project_id).length
    if count ≤ 1 then .error .validationError
    else
      let db1 := { db with partners := db.partners.filter fun p => ¬ p.id = partner_id }
      let db2 := update_project_total db1 partner.project_id
      .ok { db2 with logs := db2.logs ++ [(partner.project_id, "DELETE_PARTNER")] }

/-- `InvestmentDB.create_partner_tier`: plain INSERT plus log — note the code
performs no validation at all on tier creation. -/
def create_partner_tier (db : DB) (project_id : Nat) (tier_name description : String)
    (management_fee_rate performance_fee_rate : ℚ) (priority : Int) :
    Except DBError (DB × Nat) :=
  if db.projects.all fun pr => ¬ pr.id = project_id then .error .integrityError
  else
    let t : Tier :=
      { id := db.next_tier_id, project_id := project_id, tier_name := tier_name,
        description := description, management_fee_rate := management_fee_rate,
        performance_fee_rate := performance_fee_rate, priority := priority }
    .ok ({ db with
            tiers := db.tiers ++ [t],
            next_tier_id := db.next_tier_id + 1,
            logs := db.logs ++ [(project_id, "CREATE_TIER")] },
         t.id)

/-- `InvestmentDB.assign_partner_to_tier`: validate the amounts, check partner
and tier exist and share a project, then upsert by partner id. -/
def assign_partner_to_tier (db : DB) (partner_id tier_id : Nat)
    (commitment_amount distribution_share : ℚ) : Except DBError DB :=
  if commitment_amount < 0 then .error .validationError
  else if distribution_share < 0 ∨ 100 < distribution_share then .error .validationError
  else
    match db.partners.find? fun p => p.id = partner_id with
    | none => .error .notFoundError
    | some partner =>
      match db.tiers.find? fun t => t.id = tier_id with
      | none => .error .notFoundError
      | some tier =>
        if ¬ partner.project_id = tier.project_id then .error .validationError
        else
          let db1 : DB :=
            if db.assignments.any fun a => a.partner_id = partner_id then
              { db with assignments := db.assignments.map fun (a : Assignment) =>
                  if a.partner_id = partner_id then
                    { a with tier_id := tier_id,
                             commitment_amount := commitment_amount,
                             distribution_share := distribution_share }
                  else a }
            else
              { db with
                assignments := db.assignments ++
                  [{ id := db.next_assignment_id, partner_id := partner_id,
                     tier_id := tier_id, commitment_amount := commitment_amount,
                     distribution_share := distribution_share }],
                next_assignment_id := db.next_assignment_id + 1 }
          .ok { db1 with logs := db1.logs ++ [(partner.project_id, "ASSIGN_TIER")] }

/-- One row of the `calculate_distribution` partner query: a partner LEFT
JOINed with its tier assignment and tier. Tier columns are NULL (`none`) for
an unassigned partner; `distribution_share` and `commitment_amount` are
`COALESCE`d to 0. -/
structure Row where
  partner_id : Nat
  name : String
  investment : ℚ
  tier_name : Option String
  management_fee_rate : Option ℚ
  performance_fee_rate : Option ℚ
  priority : Option Int
  distribution_share : ℚ
  commitment_amount : ℚ
  deriving Repr, DecidableEq

/-- Build the joined row for one partner. Through the public operations each
partner has at most one assignment (`assign_partner_to_tier` upserts by
partner id), so the first match is the join result. -/
def rowOf (db : DB) (p : Partner) : Row :=
  match db.assignments.find? fun a => a.partner_id = p.id with
  | none =>
    { partner_id := p.id, name := p.name, investment := p.investment,
      tier_name := none, management_fee_rate := none,
      performance_fee_rate := none, priority := none,
      distribution_share := 0, commitment_amount := 0 }
  | some a =>
    match db.tiers.find? fun t => t.id = a.tier_id with
    | none =>
      { partner_id := p.id, name := p.name, investment := p.investment,
        tier_name := none, management_fee_rate := none,
        performance_fee_rate := none, priority := none,
        distribution_share := a.distribution_share,
        commitment_amount := a.commitment_amount }
    | some t =>
      { partner_id := p.id, name := p.name, investment := p.investment,
        tier_name := some t.tier_name,
        management_fee_rate := some t.management_fee_rate,
        performance_fee_rate := some t.performance_fee_rate,
        priority := some t.priority,
        distribution_share := a.distribution_share,
        commitment_amount := a.commitment_amount }

/-- The `ORDER BY t.priority, p.id` key: SQLite sorts ascending with NULLs
first, so a NULL priority precedes every integer priority. -/
def rowLE (r s : Row) : Bool :=
  match r.priority, s.priority with
  | none, none => r.partner_id ≤ s.partner_id
  | none, some _ => true
  | some _, none => false
  | some a, some b => a < b ∨ (a = b ∧ r.partner_id ≤ s.partner_id)

/-- Insertion step of the sort implementing the SQL ORDER BY. -/
def insertRow (r : Row) : List Row → List Row
  | [] => [r]
  | s :: rest => if rowLE r s then r :: s :: rest else s :: insertRow r rest

/-- Sort rows by `ORDER BY t.priority, p.id` (insertion sort; the key is total
on distinct partner ids, so any sort yields the same list). -/
def sortRows : List Row → List Row
  | [] => []
  | r :: rest => insertRow r (sortRows rest)

/-- The partner rows the distribution query returns for one project, in query
order. -/
def projectRows (db : DB) (project_id : Nat) : List Row :=
  sortRows ((db.partners.filter fun p => p.project_id = project_id).map (rowOf db))

/-- `SELECT total_investment FROM projects WHERE id = ?`, with the code's
`project['total_investment'] if project else 0` fallback for a missing row. -/
def totalInvestmentOf (db : DB) (project_id : Nat) : ℚ :=
  match db.projects.find? fun pr => pr.id = project_id with
  | some pr => pr.total_investment
  | none => 0

/-- ASCII uppercase conversion of one character (`str.upper()` on the ASCII
range, which covers the `'GP'` probe). -/
def upperChar (c : Char) : Char :=
  if 'a' ≤ c ∧ c ≤ 'z' then Char.ofNat (c.toNat - 32) else c

/-- Scan for the two-character pattern `GP` after uppercasing. -/
def gpScan : List Char → Bool
  | c1 :: c2 :: rest =>
    (upperChar c1 = 'G' ∧ upperChar c2 = 'P') ∨ gpScan (c2 :: rest)
  | _ => false

/-- `'GP' in tier_name.upper()` guarded by the truthiness test
`p['tier_name'] and …`: NULL or empty names never qualify. -/
def tierHasGP : Option String → Bool
  | none => false
  | some s => gpScan s.data

/-- Python `x and x > 0` on a nullable REAL: `None` and `0` are falsy, so the
test holds exactly when the value is present and positive. -/
def optPos : Option ℚ → Bool
  | none => false
  | some r => 0 < r

/-- The `management_fee` line item one qualifying GP-tier partner produces:
`distribution_amount * rate/100` against the original amount. -/
def mgmtItem (distribution_amount : ℚ) (gp : Row) : LineItem :=
  { partner_id := gp.partner_id, partner_name := gp.name,
    tier := gp.tier_name, type := "management_fee",
    amount := distribution_amount * ((gp.management_fee_rate.getD 0) / 100),
    percentage := gp.management_fee_rate.getD 0 }

/-- The `return_of_capital` line item of one invested partner. -/
def rocItem (total_investment return_of_capital : ℚ) (p : Row) : LineItem :=
  { partner_id := p.partner_id, partner_name := p.name,
    tier := p.tier_name, type := "return_of_capital",
    amount := return_of_capital * (p.investment / total_investment),
    percentage := (p.investment / total_investment) * 100 }

/-- The `performance_fee` line item of one eligible partner with its
normalized weight. -/
def perfItem (remaining total_share : ℚ) (e : Row × ℚ) : LineItem :=
  { partner_id := e.1.partner_id, partner_name := e.1.name,
    tier := e.1.tier_name, type := "performance_fee",
    amount := remaining * (e.2 / total_share),
    percentage := (e.2 / total_share) * 100 }

/-- Stage 1: each partner whose tier name contains `GP` and whose
`management_fee_rate` is positive yields a `management_fee` line item of
`distribution_amount * rate/100`, evaluated against the original amount. -/
def stage1Items (distribution_amount : ℚ) (rows : List Row) : List LineItem :=
  ((rows.filter fun p => tierHasGP p.tier_name).filterMap fun gp =>
    if optPos gp.management_fee_rate then some (mgmtItem distribution_amount gp)
    else none)

/-- `management_fee`: the fees accumulated by the Stage-1 loop. -/
def managementFee (distribution_amount : ℚ) (rows : List Row) : ℚ :=
  ((stage1Items distribution_amount rows).map fun i => i.amount).sum

/-- Stage 2: only when the stored `total_investment` is positive, return
`min(remaining, total_investment)`; when that is positive, each partner with a
positive investment gets its pro-rata slice and the remainder shrinks. -/
def stage2 (total_investment remaining : ℚ) (rows : List Row) :
    List LineItem × ℚ :=
  if 0 < total_investment then
    let return_of_capital := min remaining total_investment
    if 0 < return_of_capital then
      ((rows.filter fun p => 0 < p.investment).map
         (rocItem total_investment return_of_capital),
       remaining - return_of_capital)
    else ([], remaining)
  else ([], remaining)

/-- Stage-3 eligibility loop: first matching rule wins — positive
`performance_fee_rate`, else positive `distribution_share`, else positive
investment (whose weight divides by `total_investment`: a genuine
`ZeroDivisionError` when that is 0, as in the Python). -/
def eligibleWeights (total_investment : ℚ) :
    List Row → Except DBError (List (Row × ℚ))
  | [] => .ok []
  | p :: rest =>
    if optPos p.performance_fee_rate then do
      let r ← eligibleWeights total_investment rest
      .ok ((p, (p.performance_fee_rate.getD 0) / 100) :: r)
    else if 0 < p.distribution_share then do
      let r ← eligibleWeights total_investment rest
      .ok ((p, p.distribution_share / 100) :: r)
    else if 0 < p.investment then
      if total_investment = 0 then .error .zeroDivisionError
      else do
        let r ← eligibleWeights total_investment rest
        .ok ((p, p.investment / total_investment) :: r)
    else eligibleWeights total_investment rest

/-- Stage 3: when something remains, normalize the eligible weights and hand
each eligible partner `remaining * weight/total_share` as a `performance_fee`
line item; with no positive total weight nothing is produced. -/
def stage3 (total_investment remaining : ℚ) (rows : List Row) :
    Except DBError (List LineItem) :=
  if 0 < remaining then do
    let eligible ← eligibleWeights total_investment rows
    let total_share := ((eligible.map fun e => e.2).sum : ℚ)
    if 0 < total_share then
      .ok (eligible.map (perfItem remaining total_share))
    else .ok []
  else .ok []

/-- What `calculate_distribution` returns to its caller. -/
structure DistResult where
  distribution_id : Nat
  distribution_amount : ℚ
  management_fee : ℚ
  remaining_amount : ℚ
  details : List LineItem
  deriving Repr, DecidableEq

/-- `InvestmentDB.calculate_distribution`: read the project row (a missing
project just makes `total_investment` 0) and the joined partner rows, run the
three waterfall stages, then persist the `Distribution` row (whose INSERT
enforces the `project_id` foreign key) and the audit entry. The returned
`remaining_amount` is the post-Stage-2 remainder: Stage 3 never decrements
it. -/
def calculate_distribution (db : DB) (project_id : Nat)
    (distribution_amount : ℚ) : Except DBError (DB × DistResult) := do
  let rows := projectRows db project_id
  let total_investment := totalInvestmentOf db project_id
  let s1 := stage1Items distribution_amount rows
  let management_fee := managementFee distribution_amount rows
  let remaining1 := distribution_amount - management_fee
  let s2 := (stage2 total_investment remaining1 rows).1
  let remaining2 := (stage2 total_investment remaining1 rows).2
  let s3 ← stage3 total_investment remaining2 rows
  let details := s1 ++ s2 ++ s3
  if db.projects.any fun pr => pr.id = project_id then
    let dist : Distribution :=
      { id := db.next_distribution_id, project_id := project_id,
        total_amount := distribution_amount, details := details }
    .ok ({ db with
            distributions := db.distributions ++ [dist],
            next_distribution_id := db.next_distribution_id + 1,
            logs := db.logs ++ [(project_id, "CALCULATE_DISTRIBUTION")] },
         { distribution_id := dist.id,
           distribution_amount := distribution_amount,
           management_fee := management_fee,
           remaining_amount := remaining2,
           details := details })
  else .error .integrityError

/-- The POST branch of `handle_distribution` in src/app.py: the only amount
validation in the system — reject `distribution_amount <= 0` before invoking
the engine. -/
def handle_distribution (db : DB) (project_id : Nat)
    (distribution_amount : ℚ) : Except DBError (DB × DistResult) :=
  if distribution_amount ≤ 0 then .error .validationError
  else calculate_distribution db project_id distribution_amount

/-- Extract the success value of an operation, with a fallback (used only to
name concrete post-states in witnesses). -/
def okD (e : Except DBError α) (d : α) : α :=
  match e with
  | .ok a => a
  | .error _ => d

/-- The Partner-Ledger invariant for one project: the stored
`total_investment` is the sum of the project's partners' investments, and each
partner's `share_percentage` is `investment/total*100` when the total is
positive, else 0. -/
def ledgerInvariant (db : DB) (project_id : Nat) : Prop :=
  ∀ pr ∈ db.projects, pr.id = project_id →
    pr.total_investment = sumInvestments db.partners project_id ∧
    ∀ p ∈ db.partners, p.project_id = project_id →
      p.share_percentage =
        (if 0 < pr.total_investment then p.investment / pr.total_investment * 100 else 0)

instance (db : DB) (project_id : Nat) : Decidable (ledgerInvariant db project_id) := by
  unfold ledgerInvariant; infer_instance

/-- Derived form of the ledger invariant: the shares of a project with
positive total investment sum to exactly 100 (exact in `ℚ`; "within floating
epsilon" in the Python floats the rationals idealize). -/
def sharesSum100 (db : DB) (project_id : Nat) : Prop :=
  ∀ pr ∈ db.projects, pr.id = project_id → 0 < pr.total_investment →
    ((db.partners.filter fun p => p.project_id = project_id).map
      fun p => p.share_percentage).sum = 100

instance (db : DB) (project_id : Nat) : Decidable (sharesSum100 db project_id) := by
  unfold sharesSum100; infer_instance

/-- The Stage-3 eligibility rule for one partner, first match wins: the
pair of the row and its carry weight, or `none` when excluded. (The
investment-ratio fallback divides by `total_investment`; `eligibleWeights`
reaches it only after ruling out a zero denominator.) -/
def carryRule (total_investment : ℚ) (r : Row) : Option (Row × ℚ) :=
  if optPos r.performance_fee_rate then some (r, (r.performance_fee_rate.getD 0) / 100)
  else if 0 < r.distribution_share then some (r, r.distribution_share / 100)
  else if 0 < r.investment then some (r, r.investment / total_investment)
  else none

/-- The empty database: the state right after `init_database` on a fresh
file, with all AUTOINCREMENT counters at 1. -/
def emptyDB : DB := ⟨[], [], [], [], [], [], 1, 1, 1, 1, 1⟩

/-- Spec §8 end-to-end scenario, step 1: create project "Shop A". -/
def dbShopA : DB := (okD (create_project emptyDB "Shop A" "") (emptyDB, 0)).1

/-- Scenario step 2: add Alice with investment 600. -/
def dbAlice : DB := (okD (add_partner dbShopA 1 "Alice" (some 600) "" "") (dbShopA, 0)).1

/-- Scenario step 3: add Bob with investment 400. -/
def dbAliceBob : DB := (okD (add_partner dbAlice 1 "Bob" (some 400) "" "") (dbAlice, 0)).1

/-- Scenario step 4: create tier "GP" with management_fee_rate 5. -/
def dbGPTier : DB := (okD (create_partner_tier dbAliceBob 1 "GP" "" 5 0 0) (dbAliceBob, 0)).1

/-- Scenario step 5: assign Alice to the GP tier with distribution_share 0. -/
def e2eDB : DB := okD (assign_partner_to_tier dbGPTier 1 1 0 0) dbGPTier

/-- Placeholder result used only as the `okD` fallback when naming concrete
outputs. -/
def dr0 : DistResult := ⟨0, 0, 0, 0, []⟩

/-- The result the engine returns for the end-to-end scenario
(distribute 500 on the scenario database). -/
def e2eRes : DistResult :=
  (okD (calculate_distribution e2eDB 1 500) (e2eDB, dr0)).2

/-- The database state after the end-to-end scenario distribution. -/
def e2eDB2 : DB :=
  (okD (calculate_distribution e2eDB 1 500) (e2eDB, dr0)).1

/-- A database whose two partners sit in two distinct GP tiers that each take
a 60% management fee: cumulative fees exceed 100% of the pool. -/
def dbTwoGP : DB :=
  ⟨[⟨1, "N", "", 0⟩],
   [⟨1, 1, "P1", 0, 0, "", ""⟩, ⟨2, 1, "P2", 0, 0, "", ""⟩],
   [⟨1, 1, "GP A", "", 60, 0, 0⟩, ⟨2, 1, "GP B", "", 60, 0, 0⟩],
   [⟨1, 1, 1, 0, 0⟩, ⟨2, 2, 2, 0, 0⟩],
   [], [], 2, 3, 3, 3, 1⟩

/-- A database that reaches Stage 3 with money left: partner A carries a
20% performance tier, partner B has no performance rate but a
distribution_share of 10. -/
def dbCarry : DB :=
  ⟨[⟨1, "C", "", 400⟩],
   [⟨1, 1, "A", 100, 25, "", ""⟩, ⟨2, 1, "B", 300, 75, "", ""⟩],
   [⟨1, 1, "Carry", "", 0, 20, 0⟩, ⟨2, 1, "LP", "", 0, 0, 1⟩],
   [⟨1, 1, 1, 0, 0⟩, ⟨2, 2, 2, 0, 10⟩],
   [], [], 2, 3, 3, 3, 1⟩

/-- The result of distributing 1000 on the carry database (600 reaches
Stage 3). -/
def carryRes : DistResult :=
  (okD (calculate_distribution dbCarry 1 1000) (dbCarry, dr0)).2

/-- The state after distributing 1000 on the carry database. -/
def carryDB2 : DB :=
  (okD (calculate_distribution dbCarry 1 1000) (dbCarry, dr0)).1

/-- A project whose only partner invested 0, so the stored total is 0. -/
def dbZeroTotal : DB :=
  ⟨[⟨1, "Z", "", 0⟩], [⟨1, 1, "Zed", 0, 0, "", ""⟩], [], [], [], [], 2, 2, 1, 1, 1⟩

/-- State after raising Bob's investment to 500 on the two-partner project. -/
def dbBobRaised : DB := okD (update_partner dbAliceBob 2 none (some 500) none none) dbAliceBob

/-- State after deleting Bob from the two-partner project. -/
def dbBobGone : DB := okD (delete_partner dbAliceBob 2) dbAliceBob

/-! ## Theorems -/

/-- Rewriting only `share_percentage` of a project's partners changes neither
the project filter nor the investment sum. -/
theorem sumInvestments_shareMap (l : List Partner) (project_id : Nat) (g : Partner → ℚ) :
    sumInvestments
      (l.map fun p =>
        if p.project_id = project_id then { p with share_percentage := g p } else p)
      project_id
      = sumInvestments l project_id := by
  induction l with
  | nil => rfl
  | cons a t ih =>
    simp only [List.map_cons, sumInvestments, List.filter_cons] at ih ⊢
    by_cases h : a.project_id = project_id
    · simp [h, ih]
    · simp [h, ih]

/-- `_update_project_total` establishes the Partner-Ledger invariant for the
project it recomputes, whatever the incoming state was. -/
theorem ledgerInvariant_update_total (db : DB) (project_id : Nat) :
    ledgerInvariant (update_project_total db project_id) project_id := by
  intro pr hpr hid
  by_cases hT : 0 < sumInvestments db.partners project_id
  · simp only [update_project_total, if_pos hT] at hpr ⊢
    obtain ⟨pr0, hpr0, hg⟩ := List.mem_map.1 hpr
    by_cases h0 : pr0.id = project_id
    · rw [if_pos h0] at hg
      subst hg
      refine ⟨?_, ?_⟩
      · show sumInvestments db.partners project_id = _
        rw [sumInvestments_shareMap]
      · intro p hp hpp
        obtain ⟨p0, hp0, hgp⟩ := List.mem_map.1 hp
        by_cases hq : p0.project_id = project_id
        · rw [if_pos hq] at hgp
          subst hgp
          rw [if_pos hT]
        · rw [if_neg hq] at hgp
          subst hgp
          exact absurd hpp hq
    · rw [if_neg h0] at hg
      subst hg
      exact absurd hid h0
  · simp only [update_project_total, if_neg hT] at hpr ⊢
    obtain ⟨pr0, hpr0, hg⟩ := List.mem_map.1 hpr
    by_cases h0 : pr0.id = project_id
    · rw [if_pos h0] at hg
      subst hg
      refine ⟨?_, ?_⟩
      · show sumInvestments db.partners project_id = _
        rw [sumInvestments_shareMap]
      · intro p hp hpp
        obtain ⟨p0, hp0, hgp⟩ := List.mem_map.1 hp
        by_cases hq : p0.project_id = project_id
        · rw [if_pos hq] at hgp
          subst hgp
          rw [if_neg hT]
        · rw [if_neg hq] at hgp
          subst hgp
          exact absurd hpp hq
    · rw [if_neg h0] at hg
      subst hg
      exact absurd hid h0

/-- Appending audit-log entries does not touch the invariant (the proposition
only reads `projects` and `partners`). -/
theorem ledgerInvariant_logs (db : DB) (l : List (Nat × String)) (project_id : Nat)
    (h : ledgerInvariant db project_id) :
    ledgerInvariant { db with logs := l } project_id := h

/-- The derived shares-sum-to-100 property follows from the ledger
invariant. -/
theorem sharesSum100_of_invariant (db : DB) (project_id : Nat)
    (h : ledgerInvariant db project_id) : sharesSum100 db project_id := by
  intro pr hpr hid hpos
  obtain ⟨htot, hsh⟩ := h pr hpr hid
  have hptr : ∀ p ∈ db.partners.filter (fun p => p.project_id = project_id),
      p.share_percentage = p.investment * (100 / pr.total_investment) := by
    intro p hp
    rw [List.mem_filter] at hp
    have hx := hsh p hp.1 (by simpa using hp.2)
    rw [if_pos hpos] at hx
    rw [hx]; ring
  calc ((db.partners.filter fun p => p.project_id = project_id).map
          fun p => p.share_percentage).sum
      = ((db.partners.filter fun p => p.project_id = project_id).map
          fun p => p.investment * (100 / pr.total_investment)).sum := by
        exact congrArg List.sum (List.map_congr_left hptr)
    _ = ((db.partners.filter fun p => p.project_id = project_id).map
          fun p => p.investment).sum * (100 / pr.total_investment) := by
        rw [← List.sum_map_mul_right]
    _ = sumInvestments db.partners project_id * (100 / pr.total_investment) := rfl
    _ = 100 := by
        rw [← htot]
        field_simp

/-- Claim C1. After every successful Partner Ledger mutation (`add_partner`,
`update_partner` with at least one field supplied, `delete_partner` of an
existing partner), the affected project satisfies the ledger invariant: the
stored `total_investment` equals the sum of its partners' investments, every
partner's `share_percentage` is `investment/total*100` when the total is
positive and exactly 0 otherwise — hence the shares sum to exactly 100
whenever the total is positive. -/
theorem C1_ledger_invariant_after_mutation :
    (∀ db project_id nm inv ci nts db2 pid2,
        add_partner db project_id nm inv ci nts = .ok (db2, pid2) →
        ledgerInvariant db2 project_id ∧ sharesSum100 db2 project_id)
  ∧ (∀ db partner_id nm inv ci nts db2 p,
        db.partners.find? (fun q => q.id = partner_id) = some p →
        (nm.isSome || inv.isSome || ci.isSome || nts.isSome) = true →
        update_partner db partner_id nm inv ci nts = .ok db2 →
        ledgerInvariant db2 p.project_id ∧ sharesSum100 db2 p.project_id)
  ∧ (∀ db partner_id db2 p,
        db.partners.find? (fun q => q.id = partner_id) = some p →
        delete_partner db partner_id = .ok db2 →
        ledgerInvariant db2 p.project_id ∧ sharesSum100 db2 p.project_id) := by
  refine ⟨?_, ?_, ?_⟩
  · intro db project_id nm inv ci nts db2 pid2 h
    cases inv with
    | none =>
      simp only [add_partner] at h
      split at h <;> simp at h
    | some q =>
      simp only [add_partner] at h
      split at h
      · simp at h
      · split at h
        · simp at h
        · split at h
          · simp at h
          · rw [Except.ok.injEq, Prod.mk.injEq] at h
            obtain ⟨hdb, -⟩ := h
            subst hdb
            exact ⟨ledgerInvariant_logs _ _ _ (ledgerInvariant_update_total _ _),
                   sharesSum100_of_invariant _ _
                     (ledgerInvariant_logs _ _ _ (ledgerInvariant_update_total _ _))⟩
  · intro db partner_id nm inv ci nts db2 p hfind hsome h
    simp only [update_partner] at h
    split at h
    next heq => rw [hfind] at heq; simp at heq
    next old heq =>
      rw [hfind, Option.some.injEq] at heq
      subst heq
      split at h
      · simp at h
      · split at h
        · simp at h
        · -- the no-field else branch is discharged by `split` itself, which
          -- resolves the `isSome` test against `hsome`
          rw [Except.ok.injEq] at h
          subst h
          exact ⟨ledgerInvariant_logs _ _ _ (ledgerInvariant_update_total _ _),
                 sharesSum100_of_invariant _ _
                   (ledgerInvariant_logs _ _ _ (ledgerInvariant_update_total _ _))⟩
  · intro db partner_id db2 p hfind h
    simp only [delete_partner] at h
    split at h
    next heq => rw [hfind] at heq; simp at heq
    next partner heq =>
      rw [hfind, Option.some.injEq] at heq
      subst heq
      split at h
      · simp at h
      · rw [Except.ok.injEq] at h
        subst h
        exact ⟨ledgerInvariant_logs _ _ _ (ledgerInvariant_update_total _ _),
               sharesSum100_of_invariant _ _
                 (ledgerInvariant_logs _ _ _ (ledgerInvariant_update_total _ _))⟩

/-- Rewriting only `share_percentage` changes no partner's project, so
per-project partner counts survive the share recompute. -/
theorem filter_project_shareMap (l : List Partner) (project_id target : Nat) (g : Partner → ℚ) :
    ((l.map fun p =>
        if p.project_id = project_id then { p with share_percentage := g p } else p).filter
        fun q => q.project_id = target).length
      = (l.filter fun q => q.project_id = target).length := by
  induction l with
  | nil => rfl
  | cons a t ih =>
    simp only [List.map_cons, List.filter_cons] at ih ⊢
    by_cases h : a.project_id = project_id
    · rw [if_pos h]
      by_cases h2 : project_id = target
      · subst h2
        simp [h, ih]
      · simp [h, h2, ih]
    · rw [if_neg h]
      by_cases h2 : a.project_id = target <;> simp [h2, ih]

/-- With distinct partner ids, a project holding the deleted partner and at
least two partners keeps one with a different id; a project not holding it
keeps all of its partners. -/
theorem exists_survivor (l : List Partner) (partner_id target : Nat) (partner : Partner)
    (hnodup : (l.map fun q => q.id).Nodup)
    (hfind : l.find? (fun q => q.id = partner_id) = some partner)
    (hcount : ¬ (l.filter fun q => q.project_id = partner.project_id).length ≤ 1)
    (hpos : 0 < (l.filter fun q => q.project_id = target).length) :
    0 < (((l.filter fun q => ¬ q.id = partner_id).filter
        fun q => q.project_id = target)).length := by
  have hinj : ∀ x ∈ l, ∀ y ∈ l, x.id = y.id → x = y :=
    List.inj_on_of_nodup_map hnodup
  have hpmem : partner ∈ l := List.mem_of_find?_eq_some hfind
  have hpid : partner.id = partner_id := by
    have := List.find?_some hfind
    simpa using this
  have key : ∃ y ∈ l, y.project_id = target ∧ ¬ y.id = partner_id := by
    by_cases htgt : target = partner.project_id
    · by_cases hall : ∀ y ∈ l.filter (fun q => q.project_id = partner.project_id),
          y.id = partner_id
      · exfalso
        apply hcount
        have hdup : l.Nodup := List.Nodup.of_map _ hnodup
        have hfd : (l.filter fun q => q.project_id = partner.project_id).Nodup := hdup.filter _
        match hl : l.filter fun q => q.project_id = partner.project_id with
        | [] => simp [hl]
        | [a] => simp [hl]
        | a :: b :: rest =>
          exfalso
          rw [hl] at hall hfd
          have ha : a = partner := by
            apply hinj a (List.mem_of_mem_filter (hl ▸ List.mem_cons_self a _)) partner hpmem
            rw [hall a (List.mem_cons_self a _), hpid]
          have hb : b = partner := by
            apply hinj b
              (List.mem_of_mem_filter (hl ▸ List.mem_cons.2 (Or.inr (List.mem_cons_self b _))))
              partner hpmem
            rw [hall b (List.mem_cons.2 (Or.inr (List.mem_cons_self b _))), hpid]
          rw [List.nodup_cons] at hfd
          exact hfd.1 (by rw [ha, hb]; exact List.mem_cons_self _ _)
      · push_neg at hall
        obtain ⟨y, hy, hyid⟩ := hall
        rw [List.mem_filter] at hy
        have hyp : y.project_id = partner.project_id := by simpa using hy.2
        exact ⟨y, hy.1, by rw [htgt, hyp], hyid⟩
    · obtain ⟨x, hx⟩ := List.length_pos_iff_exists_mem.1 hpos
      rw [List.mem_filter] at hx
      have hxt : x.project_id = target := by simpa using hx.2
      refine ⟨x, hx.1, hxt, fun hxid => ?_⟩
      have hxp : x = partner := hinj x hx.1 partner hpmem (by rw [hxid, hpid])
      apply htgt
      rw [← hxt, hxp]
  obtain ⟨y, hy, hyt, hyid⟩ := key
  apply List.length_pos_iff_exists_mem.2
  exact ⟨y, List.mem_filter.2 ⟨List.mem_filter.2 ⟨hy, by simpa using hyid⟩, by simpa using hyt⟩⟩

/-- Claim C8. `delete_partner` on a project's sole remaining partner fails with
a `ValidationError` (and, the transaction rolling back, changes nothing); and
whenever `delete_partner` succeeds, every project that had a partner still has
one — no sequence of `delete_partner` calls empties a project. -/
theorem C8_delete_last_partner_forbidden :
    (∀ db partner_id p,
        db.partners.find? (fun q => q.id = partner_id) = some p →
        (db.partners.filter fun q => q.project_id = p.project_id).length = 1 →
        delete_partner db partner_id = .error .validationError)
  ∧ (∀ db partner_id db2,
        (db.partners.map fun q => q.id).Nodup →
        delete_partner db partner_id = .ok db2 →
        ∀ project_id, 0 < (db.partners.filter fun q => q.project_id = project_id).length →
          0 < (db2.partners.filter fun q => q.project_id = project_id).length) := by
  constructor
  · intro db partner_id p hfind hlen
    simp only [delete_partner, hfind]
    rw [hlen]
    simp
  · intro db partner_id db2 hnodup h project_id hpos
    simp only [delete_partner] at h
    split at h
    next heq =>
      rw [Except.ok.injEq] at h
      subst h
      exact hpos
    next partner heq =>
      split at h
      · simp at h
      next hcount =>
        rw [Except.ok.injEq] at h
        subst h
        show 0 < ((update_project_total _ _).partners.filter _).length
        simp only [update_project_total]
        split
        · rw [filter_project_shareMap]
          exact exists_survivor db.partners partner_id project_id partner hnodup heq hcount hpos
        · rw [filter_project_shareMap]
          exact exists_survivor db.partners partner_id project_id partner hnodup heq hcount hpos

/-- Witness: C8 applied to deleting the sole partner (rejected) and deleting
Bob from the two-partner project (Alice remains). -/
theorem C8_delete_last_partner_forbidden_witness :
    delete_partner dbAlice 1 = .error .validationError ∧
    0 < (dbBobGone.partners.filter fun q => q.project_id = 1).length :=
  ⟨C8_delete_last_partner_forbidden.1 dbAlice 1 ⟨1, 1, "Alice", 600, 100, "", ""⟩
     (by with_unfolding_all rfl) (by with_unfolding_all rfl),
   C8_delete_last_partner_forbidden.2 dbAliceBob 2 dbBobGone
     (by with_unfolding_all decide) (by with_unfolding_all rfl) 1
     (by with_unfolding_all decide)⟩

/-- Claim C9, counterexample. Deleting a partner id that does not exist returns
success with the state unchanged — not a `NotFoundError`. -/
theorem C9_counterexample :
    delete_partner dbAlice 2 = .ok dbAlice ∧
    delete_partner dbAlice 2 ≠ .error .notFoundError := by
  have h1 : delete_partner dbAlice 2 = .ok dbAlice := by with_unfolding_all rfl
  exact ⟨h1, by rw [h1]; exact fun hc => Except.noConfusion hc⟩

/-- Claim C9, amended. `delete_partner` on a missing partner id is a silent
no-op: the `if partner:` guard has no `else`, so the call returns success,
deletes nothing, recomputes nothing and writes no audit entry. -/
theorem C9_delete_missing_partner_silent_noop (db : DB) (partner_id : Nat)
    (hfind : db.partners.find? (fun q => q.id = partner_id) = none) :
    delete_partner db partner_id = .ok db := by
  simp only [delete_partner, hfind]

/-- Witness: C9 (amended) applied to partner id 2 on the one-partner
project. -/
theorem C9_delete_missing_partner_silent_noop_witness :
    delete_partner dbAlice 2 = .ok dbAlice :=
  C9_delete_missing_partner_silent_noop dbAlice 2 (by with_unfolding_all rfl)

/-- Every Stage-1 line item is typed `management_fee`. -/
theorem stage1Items_type (A : ℚ) (rows : List Row) :
    ∀ i ∈ stage1Items A rows, i.type = "management_fee" := by
  intro i hi
  unfold stage1Items at hi
  obtain ⟨gp, -, hgp⟩ := List.mem_filterMap.1 hi
  by_cases h : optPos gp.management_fee_rate
  · rw [if_pos h, Option.some.injEq] at hgp
    rw [← hgp]
    rfl
  · rw [if_neg h] at hgp
    exact Option.noConfusion hgp

/-- Monad-bind of an error propagates the error. -/
theorem except_bind_error {α β : Type} (e : DBError) (f : α → Except DBError β) :
    (Except.error e >>= f) = Except.error e := rfl

/-- Monad-bind of a success applies the continuation. -/
theorem except_bind_ok {α β : Type} (a : α) (f : α → Except DBError β) :
    (Except.ok a >>= f) = f a := rfl

/-- Every Stage-2 line item is typed `return_of_capital`. -/
theorem stage2_items_type (T r : ℚ) (rows : List Row) :
    ∀ i ∈ (stage2 T r rows).1, i.type = "return_of_capital" := by
  intro i hi
  simp only [stage2] at hi
  split at hi
  · split at hi
    · obtain ⟨p, -, hp⟩ := List.mem_map.1 hi
      rw [← hp]
      rfl
    · exact absurd hi (List.not_mem_nil i)
  · exact absurd hi (List.not_mem_nil i)

/-- Every Stage-3 line item is typed `performance_fee`. -/
theorem stage3_items_type (T r : ℚ) (rows : List Row) (l : List LineItem)
    (h : stage3 T r rows = .ok l) : ∀ i ∈ l, i.type = "performance_fee" := by
  intro i hi
  simp only [stage3] at h
  split at h
  · cases hew : eligibleWeights T rows with
    | error e =>
      rw [hew] at h
      simp only [except_bind_error] at h
      exact Except.noConfusion h
    | ok ws =>
      rw [hew] at h
      simp only [except_bind_ok] at h
      split at h
      · rw [Except.ok.injEq] at h
        subst h
        obtain ⟨e, -, he⟩ := List.mem_map.1 hi
        rw [← he]
        rfl
      · rw [Except.ok.injEq] at h
        subst h
        exact absurd hi (List.not_mem_nil i)
  · rw [Except.ok.injEq] at h
    subst h
    exact absurd hi (List.not_mem_nil i)

/-- Unpacking a successful `calculate_distribution` run into its stage
components. -/
theorem calc_ok_parts (db : DB) (project_id : Nat) (A : ℚ) (db2 : DB) (res : DistResult)
    (h : calculate_distribution db project_id A = .ok (db2, res)) :
    ∃ s3, stage3 (totalInvestmentOf db project_id)
        ((stage2 (totalInvestmentOf db project_id)
          (A - managementFee A (projectRows db project_id)) (projectRows db project_id)).2)
        (projectRows db project_id) = .ok s3
      ∧ res = { distribution_id := db.next_distribution_id,
                distribution_amount := A,
                management_fee := managementFee A (projectRows db project_id),
                remaining_amount :=
                  (stage2 (totalInvestmentOf db project_id)
                    (A - managementFee A (projectRows db project_id))
                    (projectRows db project_id)).2,
                details := stage1Items A (projectRows db project_id)
                  ++ (stage2 (totalInvestmentOf db project_id)
                        (A - managementFee A (projectRows db project_id))
                        (projectRows db project_id)).1
                  ++ s3 } := by
  simp only [calculate_distribution] at h
  cases hs3 : stage3 (totalInvestmentOf db project_id)
      ((stage2 (totalInvestmentOf db project_id)
        (A - managementFee A (projectRows db project_id)) (projectRows db project_id)).2)
      (projectRows db project_id) with
  | error e =>
    rw [hs3] at h
    simp only [except_bind_error] at h
    exact Except.noConfusion h
  | ok s3 =>
    rw [hs3] at h
    simp only [except_bind_ok] at h
    split at h
    · rw [Except.ok.injEq, Prod.mk.injEq] at h
      exact ⟨s3, rfl, h.2.symm⟩
    · exact absurd h (by simp)

/-- `stage1Items` is exactly the qualifying partners mapped to their fee
items. -/
theorem stage1Items_eq (A : ℚ) (rows : List Row) :
    stage1Items A rows
      = (rows.filter fun r => tierHasGP r.tier_name && optPos r.management_fee_rate).map
          (mgmtItem A) := by
  unfold stage1Items
  induction rows with
  | nil => rfl
  | cons a t ih =>
    simp only [List.filter_cons]
    by_cases h1 : tierHasGP a.tier_name
    · by_cases h2 : optPos a.management_fee_rate <;>
        simp [h1, h2, List.filterMap_cons, ih]
    · simp [h1, ih]

/-- A list of line items all carrying the probed type survives the filter
whole. -/
theorem filter_type_all {l : List LineItem} {ty : String} (h : ∀ i ∈ l, i.type = ty) :
    l.filter (fun i => i.type = ty) = l := by
  rw [List.filter_eq_self]
  intro a ha
  simp [h a ha]

/-- A list of line items all carrying a different type is filtered away. -/
theorem filter_type_none {l : List LineItem} {ty ty2 : String} (hne : ty2 ≠ ty)
    (h : ∀ i ∈ l, i.type = ty2) : l.filter (fun i => i.type = ty) = [] := by
  rw [List.filter_eq_nil_iff]
  intro a ha
  simp [h a ha, hne]

/-- Claim C2. In Stage 1, exactly the partners whose tier name contains "GP"
(case-insensitive) with positive `management_fee_rate` produce
`management_fee` line items of `A * rate/100`, each against the original
amount `A`; the returned `management_fee` is their sum; the remainder handed
to Stage 2 is `A - management_fee`; every management-fee item stems from a
qualifying partner; and on a concrete database whose two GP tiers take 60%
each, the remainder goes negative, unguarded. -/
theorem C2_stage1_management_fee (db : DB) (project_id : Nat) (A : ℚ) (db2 : DB)
    (res : DistResult)
    (h : calculate_distribution db project_id A = .ok (db2, res)) :
    res.details.filter (fun i => i.type = "management_fee")
      = ((projectRows db project_id).filter
          (fun r => tierHasGP r.tier_name && optPos r.management_fee_rate)).map (mgmtItem A)
  ∧ res.management_fee
      = (((projectRows db project_id).filter
          (fun r => tierHasGP r.tier_name && optPos r.management_fee_rate)).map
            (fun r => A * ((r.management_fee_rate.getD 0) / 100))).sum
  ∧ res.remaining_amount
      = (stage2 (totalInvestmentOf db project_id) (A - res.management_fee)
          (projectRows db project_id)).2
  ∧ (∀ i ∈ res.details, i.type = "management_fee" →
      ∃ r ∈ projectRows db project_id,
        (tierHasGP r.tier_name && optPos r.management_fee_rate) = true ∧ i = mgmtItem A r)
  ∧ (okD (calculate_distribution dbTwoGP 1 100) (dbTwoGP, dr0)).2.remaining_amount = -20 := by
  obtain ⟨s3, hs3, hres⟩ := calc_ok_parts db project_id A db2 res h
  subst hres
  have hfee : managementFee A (projectRows db project_id)
      = (((projectRows db project_id).filter
          (fun r => tierHasGP r.tier_name && optPos r.management_fee_rate)).map
            (fun r => A * ((r.management_fee_rate.getD 0) / 100))).sum := by
    unfold managementFee
    rw [stage1Items_eq, List.map_map]
    rfl
  have hflt : (stage1Items A (projectRows db project_id)
        ++ (stage2 (totalInvestmentOf db project_id)
              (A - managementFee A (projectRows db project_id))
              (projectRows db project_id)).1
        ++ s3).filter (fun i => i.type = "management_fee")
      = stage1Items A (projectRows db project_id) := by
    rw [List.filter_append, List.filter_append,
      filter_type_all (stage1Items_type A (projectRows db project_id)),
      filter_type_none (by decide) (stage2_items_type _ _ (projectRows db project_id)),
      filter_type_none (by decide) (stage3_items_type _ _ (projectRows db project_id) s3 hs3),
      List.append_nil, List.append_nil]
  refine ⟨?_, hfee, rfl, ?_, by with_unfolding_all decide⟩
  · exact hflt.trans (stage1Items_eq A (projectRows db project_id))
  · intro i hi hity
    have : i ∈ stage1Items A (projectRows db project_id) := by
      rw [← hflt]
      exact List.mem_filter.2 ⟨hi, by simp [hity]⟩
    rw [stage1Items_eq] at this
    obtain ⟨r, hr, hri⟩ := List.mem_map.1 this
    exact ⟨r, List.mem_of_mem_filter hr, (List.mem_filter.1 hr).2, hri.symm⟩

/-- Witness: C2 applied to the end-to-end scenario distribution. -/
theorem C2_stage1_management_fee_witness :
    e2eRes.details.filter (fun i => i.type = "management_fee")
      = ((projectRows e2eDB 1).filter
          (fun r => tierHasGP r.tier_name && optPos r.management_fee_rate)).map (mgmtItem 500) :=
  (C2_stage1_management_fee e2eDB 1 500 e2eDB2 e2eRes
    (by with_unfolding_all rfl)).1

/-- Claim C3. Stage 2 runs only when the stored `total_investment` is positive:
then `returnOfCapital = min(remaining, total_investment)` and, when that is
positive, exactly the partners with positive investment receive pro-rata
`return_of_capital` items and the remainder drops by `returnOfCapital`; when
`total_investment` is 0 (or the return is not positive) Stage 2 emits nothing
and leaves the remainder unchanged; and every `return_of_capital` item stems
from a positive-investment partner. -/
theorem C3_stage2_return_of_capital (db : DB) (project_id : Nat) (A : ℚ) (db2 : DB)
    (res : DistResult)
    (h : calculate_distribution db project_id A = .ok (db2, res)) :
    (totalInvestmentOf db project_id = 0 →
        res.details.filter (fun i => i.type = "return_of_capital") = []
        ∧ res.remaining_amount = A - res.management_fee)
  ∧ (0 < totalInvestmentOf db project_id →
      0 < min (A - managementFee A (projectRows db project_id))
            (totalInvestmentOf db project_id) →
        res.details.filter (fun i => i.type = "return_of_capital")
          = ((projectRows db project_id).filter fun r => 0 < r.investment).map
              (rocItem (totalInvestmentOf db project_id)
                (min (A - managementFee A (projectRows db project_id))
                  (totalInvestmentOf db project_id)))
        ∧ res.remaining_amount
          = (A - managementFee A (projectRows db project_id))
            - min (A - managementFee A (projectRows db project_id))
                (totalInvestmentOf db project_id))
  ∧ (0 < totalInvestmentOf db project_id →
      min (A - managementFee A (projectRows db project_id))
          (totalInvestmentOf db project_id) ≤ 0 →
        res.details.filter (fun i => i.type = "return_of_capital") = []
        ∧ res.remaining_amount = A - managementFee A (projectRows db project_id))
  ∧ (∀ i ∈ res.details, i.type = "return_of_capital" →
      ∃ r ∈ projectRows db project_id, 0 < r.investment
        ∧ i = rocItem (totalInvestmentOf db project_id)
            (min (A - managementFee A (projectRows db project_id))
              (totalInvestmentOf db project_id)) r) := by
  obtain ⟨s3, hs3, hres⟩ := calc_ok_parts db project_id A db2 res h
  subst hres
  have hflt : (stage1Items A (projectRows db project_id)
        ++ (stage2 (totalInvestmentOf db project_id)
              (A - managementFee A (projectRows db project_id))
              (projectRows db project_id)).1
        ++ s3).filter (fun i => i.type = "return_of_capital")
      = (stage2 (totalInvestmentOf db project_id)
          (A - managementFee A (projectRows db project_id))
          (projectRows db project_id)).1 := by
    rw [List.filter_append, List.filter_append,
      filter_type_none (by decide) (stage1Items_type A (projectRows db project_id)),
      filter_type_all (stage2_items_type _ _ (projectRows db project_id)),
      filter_type_none (by decide) (stage3_items_type _ _ (projectRows db project_id) s3 hs3),
      List.nil_append, List.append_nil]
  refine ⟨?_, ?_, ?_, ?_⟩
  · intro htot
    have h2 : stage2 (totalInvestmentOf db project_id)
        (A - managementFee A (projectRows db project_id)) (projectRows db project_id)
        = ([], A - managementFee A (projectRows db project_id)) := by
      simp only [stage2, htot]
      simp
    exact ⟨hflt.trans (by rw [h2]), by show (stage2 _ _ _).2 = _; rw [h2]⟩
  · intro hT hroc
    have h2 : stage2 (totalInvestmentOf db project_id)
        (A - managementFee A (projectRows db project_id)) (projectRows db project_id)
        = (((projectRows db project_id).filter fun r => 0 < r.investment).map
            (rocItem (totalInvestmentOf db project_id)
              (min (A - managementFee A (projectRows db project_id))
                (totalInvestmentOf db project_id))),
           (A - managementFee A (projectRows db project_id))
            - min (A - managementFee A (projectRows db project_id))
                (totalInvestmentOf db project_id)) := by
      simp only [stage2]
      rw [if_pos hT, if_pos hroc]
    exact ⟨hflt.trans (by rw [h2]), by show (stage2 _ _ _).2 = _; rw [h2]⟩
  · intro hT hroc
    have h2 : stage2 (totalInvestmentOf db project_id)
        (A - managementFee A (projectRows db project_id)) (projectRows db project_id)
        = ([], A - managementFee A (projectRows db project_id)) := by
      simp only [stage2]
      rw [if_pos hT, if_neg (not_lt.2 hroc)]
    exact ⟨hflt.trans (by rw [h2]), by show (stage2 _ _ _).2 = _; rw [h2]⟩
  · intro i hi hty
    have hmem : i ∈ (stage2 (totalInvestmentOf db project_id)
        (A - managementFee A (projectRows db project_id)) (projectRows db project_id)).1 := by
      rw [← hflt]
      exact List.mem_filter.2 ⟨hi, by simp [hty]⟩
    simp only [stage2] at hmem
    split at hmem
    · split at hmem
      · obtain ⟨r, hr, hri⟩ := List.mem_map.1 hmem
        exact ⟨r, List.mem_of_mem_filter hr,
          by simpa using (List.mem_filter.1 hr).2, hri.symm⟩
      · exact absurd hmem (List.not_mem_nil i)
    · exact absurd hmem (List.not_mem_nil i)

/-- Witness: C3's positive branch applied to the end-to-end scenario (total
1000, return of capital 475). -/
theorem C3_stage2_return_of_capital_witness :
    e2eRes.details.filter (fun i => i.type = "return_of_capital")
      = ((projectRows e2eDB 1).filter fun r => 0 < r.investment).map
          (rocItem (totalInvestmentOf e2eDB 1)
            (min (500 - managementFee 500 (projectRows e2eDB 1))
              (totalInvestmentOf e2eDB 1)))
    ∧ e2eRes.remaining_amount
      = (500 - managementFee 500 (projectRows e2eDB 1))
        - min (500 - managementFee 500 (projectRows e2eDB 1))
            (totalInvestmentOf e2eDB 1) :=
  (C3_stage2_return_of_capital e2eDB 1 500 e2eDB2 e2eRes
      (by with_unfolding_all rfl)).2.1
    (by with_unfolding_all decide) (by with_unfolding_all decide)

/-- A `carryRule` hit always pairs the examined row itself. -/
theorem carryRule_some_fst (T : ℚ) (a : Row) (e : Row × ℚ)
    (h : carryRule T a = some e) : e.1 = a := by
  unfold carryRule at h
  split at h
  · rw [Option.some.injEq] at h
    rw [← h]
  · split at h
    · rw [Option.some.injEq] at h
      rw [← h]
    · split at h
      · rw [Option.some.injEq] at h
        rw [← h]
      · exact Option.noConfusion h

/-- A successful eligibility pass is exactly `filterMap` of the first-match
rule over the rows. -/
theorem eligibleWeights_ok_eq (T : ℚ) (l : List Row) (ws : List (Row × ℚ))
    (h : eligibleWeights T l = .ok ws) : ws = l.filterMap (carryRule T) := by
  induction l generalizing ws with
  | nil =>
    simp only [eligibleWeights] at h
    rw [Except.ok.injEq] at h
    rw [← h, List.filterMap_nil]
  | cons p rest ih =>
    simp only [eligibleWeights] at h
    by_cases h1 : optPos p.performance_fee_rate
    · rw [if_pos h1] at h
      cases hr : eligibleWeights T rest with
      | error e =>
        rw [hr] at h
        simp only [except_bind_error] at h
        exact Except.noConfusion h
      | ok r =>
        rw [hr] at h
        simp only [except_bind_ok] at h
        rw [Except.ok.injEq] at h
        subst h
        rw [List.filterMap_cons_some
          (show carryRule T p = some (p, (p.performance_fee_rate.getD 0) / 100) from by
            unfold carryRule; rw [if_pos h1]), ih r hr]
    · rw [if_neg h1] at h
      by_cases h2 : 0 < p.distribution_share
      · rw [if_pos h2] at h
        cases hr : eligibleWeights T rest with
        | error e =>
          rw [hr] at h
          simp only [except_bind_error] at h
          exact Except.noConfusion h
        | ok r =>
          rw [hr] at h
          simp only [except_bind_ok] at h
          rw [Except.ok.injEq] at h
          subst h
          rw [List.filterMap_cons_some
            (show carryRule T p = some (p, p.distribution_share / 100) from by
              unfold carryRule; rw [if_neg h1, if_pos h2]), ih r hr]
      · rw [if_neg h2] at h
        by_cases h3 : 0 < p.investment
        · rw [if_pos h3] at h
          by_cases h4 : T = 0
          · rw [if_pos h4] at h
            exact absurd h (by simp)
          · rw [if_neg h4] at h
            cases hr : eligibleWeights T rest with
            | error e =>
              rw [hr] at h
              simp only [except_bind_error] at h
              exact Except.noConfusion h
            | ok r =>
              rw [hr] at h
              simp only [except_bind_ok] at h
              rw [Except.ok.injEq] at h
              subst h
              rw [List.filterMap_cons_some
                (show carryRule T p = some (p, p.investment / T) from by
                  unfold carryRule; rw [if_neg h1, if_neg h2, if_pos h3]), ih r hr]
        · rw [if_neg h3] at h
          rw [List.filterMap_cons_none
            (show carryRule T p = none from by
              unfold carryRule; rw [if_neg h1, if_neg h2, if_neg h3])]
          exact ih ws h

/-- A successful Stage 3 with money remaining exposes its eligibility list and
normalization. -/
theorem stage3_ok_elig (T rem : ℚ) (rows : List Row) (hrem : 0 < rem)
    (l : List LineItem) (h : stage3 T rem rows = .ok l) :
    ∃ ws, eligibleWeights T rows = .ok ws
      ∧ l = (if 0 < (ws.map fun e => e.2).sum then
          ws.map (perfItem rem ((ws.map fun e => e.2).sum)) else []) := by
  simp only [stage3, if_pos hrem] at h
  cases hew : eligibleWeights T rows with
  | error e =>
    rw [hew] at h
    simp only [except_bind_error] at h
    exact Except.noConfusion h
  | ok ws =>
    rw [hew] at h
    simp only [except_bind_ok] at h
    refine ⟨ws, rfl, ?_⟩
    split at h <;> rw [Except.ok.injEq] at h <;> subst h
    · rw [if_pos (by assumption)]
    · rw [if_neg (by assumption)]

/-- Claim C4. When Stage 3 runs (remaining > 0), each partner's carry weight is
the first matching rule of: positive `performance_fee_rate` → `rate/100`;
else positive `distribution_share` → `share/100`; else positive investment →
`investment/total_investment`; non-matching partners are excluded. With
positive total weight every eligible partner receives
`remaining * weight/totalWeight` as a `performance_fee` item; in particular a
partner with no performance rate but a positive distribution share carries
the share weight, not the investment fallback. -/
theorem C4_stage3_carry (db : DB) (project_id : Nat) (A : ℚ) (db2 : DB)
    (res : DistResult)
    (h : calculate_distribution db project_id A = .ok (db2, res))
    (hrem : 0 < res.remaining_amount) :
    ∃ ws, eligibleWeights (totalInvestmentOf db project_id) (projectRows db project_id)
        = .ok ws
      ∧ ws = (projectRows db project_id).filterMap
          (carryRule (totalInvestmentOf db project_id))
      ∧ (0 < (ws.map fun e => e.2).sum →
          res.details.filter (fun i => i.type = "performance_fee")
            = ws.map (perfItem res.remaining_amount ((ws.map fun e => e.2).sum)))
      ∧ ((ws.map fun e => e.2).sum ≤ 0 →
          res.details.filter (fun i => i.type = "performance_fee") = [])
      ∧ (∀ r ∈ projectRows db project_id, ¬ optPos r.performance_fee_rate →
          0 < r.distribution_share → (r, r.distribution_share / 100) ∈ ws)
      ∧ (∀ r ∈ projectRows db project_id,
          carryRule (totalInvestmentOf db project_id) r = none → ∀ w, (r, w) ∉ ws) := by
  obtain ⟨s3, hs3, hres⟩ := calc_ok_parts db project_id A db2 res h
  subst hres
  obtain ⟨ws, hws, hs3eq⟩ := stage3_ok_elig _ _ _ hrem s3 hs3
  have hchar := eligibleWeights_ok_eq _ _ ws hws
  have hflt : (stage1Items A (projectRows db project_id)
        ++ (stage2 (totalInvestmentOf db project_id)
              (A - managementFee A (projectRows db project_id))
              (projectRows db project_id)).1
        ++ s3).filter (fun i => i.type = "performance_fee") = s3 := by
    rw [List.filter_append, List.filter_append,
      filter_type_none (by decide) (stage1Items_type A (projectRows db project_id)),
      filter_type_none (by decide) (stage2_items_type _ _ (projectRows db project_id)),
      filter_type_all (stage3_items_type _ _ (projectRows db project_id) s3 hs3),
      List.nil_append, List.nil_append]
  refine ⟨ws, hws, hchar, ?_, ?_, ?_, ?_⟩
  · intro hsum
    exact hflt.trans (by rw [hs3eq, if_pos hsum])
  · intro hsum
    exact hflt.trans (by rw [hs3eq, if_neg (not_lt.2 hsum)])
  · intro r hr hperf hshare
    rw [hchar]
    exact List.mem_filterMap.2 ⟨r, hr, by unfold carryRule; rw [if_neg hperf, if_pos hshare]⟩
  · intro r hr hnone w hmem
    rw [hchar] at hmem
    obtain ⟨a, ha, hae⟩ := List.mem_filterMap.1 hmem
    have har : a = r := by
      have := carryRule_some_fst _ a _ hae
      simpa using this.symm
    rw [har, hnone] at hae
    exact Option.noConfusion hae

/-- Witness: C4 applied to the carry database (perf-rate partner plus a
distribution-share partner, 600 reaching Stage 3). -/
theorem C4_stage3_carry_witness :
    eligibleWeights (totalInvestmentOf dbCarry 1) (projectRows dbCarry 1)
      = .ok ((projectRows dbCarry 1).filterMap (carryRule (totalInvestmentOf dbCarry 1))) := by
  obtain ⟨ws, hws, hchar, -⟩ :=
    C4_stage3_carry dbCarry 1 1000 carryDB2 carryRes
      (by with_unfolding_all rfl) (by with_unfolding_all decide)
  rw [← hchar]
  exact hws

/-- Inserting into the sorted list permutes consing. -/
theorem insertRow_perm (r : Row) (l : List Row) : (insertRow r l).Perm (r :: l) := by
  induction l with
  | nil => exact List.Perm.refl _
  | cons s t ih =>
    unfold insertRow
    split
    · exact List.Perm.refl _
    · exact (List.Perm.cons s ih).trans (List.Perm.swap r s t)

/-- The ORDER BY sort permutes its input. -/
theorem sortRows_perm (l : List Row) : (sortRows l).Perm l := by
  induction l with
  | nil => exact List.Perm.refl _
  | cons r t ih => exact (insertRow_perm r (sortRows t)).trans (List.Perm.cons r ih)

/-- The rows of a project are, up to order, its partners joined with their
assignments. -/
theorem mem_projectRows (db : DB) (project_id : Nat) (r : Row) :
    r ∈ projectRows db project_id
      ↔ r ∈ (db.partners.filter fun p => p.project_id = project_id).map (rowOf db) :=
  (sortRows_perm _).mem_iff

/-- The join copies the partner's investment unchanged. -/
theorem rowOf_investment (db : DB) (p : Partner) : (rowOf db p).investment = p.investment := by
  unfold rowOf
  split
  · rfl
  · split <;> rfl

/-- A list of non-negative rationals with zero sum is all zeros. -/
theorem sum_nonneg_zero (l : List ℚ) (hnn : ∀ x ∈ l, 0 ≤ x) (hsum : l.sum = 0) :
    ∀ x ∈ l, x = 0 := by
  induction l with
  | nil => intro x hx; exact absurd hx (List.not_mem_nil x)
  | cons a t ih =>
    rw [List.sum_cons] at hsum
    have hts : 0 ≤ t.sum := List.sum_nonneg fun x hx => hnn x (List.mem_cons_of_mem a hx)
    have ha : 0 ≤ a := hnn a (List.mem_cons_self a t)
    have ha0 : a = 0 := by linarith
    intro x hx
    rcases List.mem_cons.1 hx with rfl | hx2
    · exact ha0
    · exact ih (fun y hy => hnn y (List.mem_cons_of_mem a hy)) (by linarith) x hx2

/-- When no row has positive investment, the eligibility loop cannot reach the
dividing fallback and always succeeds. -/
theorem eligibleWeights_ok_of_rows (T : ℚ) (l : List Row)
    (hno : ∀ r ∈ l, ¬ 0 < r.investment) : ∃ ws, eligibleWeights T l = .ok ws := by
  induction l with
  | nil => exact ⟨[], rfl⟩
  | cons p rest ih =>
    obtain ⟨ws, hws⟩ := ih fun r hr => hno r (List.mem_cons_of_mem p hr)
    simp only [eligibleWeights]
    by_cases h1 : optPos p.performance_fee_rate
    · refine ⟨(p, (p.performance_fee_rate.getD 0) / 100) :: ws, ?_⟩
      rw [if_pos h1, hws]
      rfl
    · by_cases h2 : 0 < p.distribution_share
      · refine ⟨(p, p.distribution_share / 100) :: ws, ?_⟩
        rw [if_neg h1, if_pos h2, hws]
        rfl
      · rw [if_neg h1, if_neg h2, if_neg (hno p (List.mem_cons_self p rest))]
        exact ⟨ws, hws⟩

/-- Once the eligibility pass succeeds, Stage 3 as a whole succeeds. -/
theorem stage3_ok_of_elig (T rem : ℚ) (rows : List Row)
    (hws : ∃ ws, eligibleWeights T rows = .ok ws) :
    ∃ l, stage3 T rem rows = .ok l := by
  obtain ⟨ws, hws⟩ := hws
  simp only [stage3]
  split
  · rw [hws]
    simp only [except_bind_ok]
    split
    · exact ⟨_, rfl⟩
    · exact ⟨_, rfl⟩
  · exact ⟨[], rfl⟩

/-- Claim C5. With the ledger invariant in force and a stored total of 0, every
partner's investment is 0, so the Stage-3 investment-ratio fallback cannot
fire: a partner matching neither the performance-rate rule nor the
distribution-share rule is excluded from carry, and `calculate_distribution`
raises no division-by-zero on this path. -/
theorem C5_zero_total_excludes_fallback (db : DB) (project_id : Nat) (A : ℚ) (pr : Project)
    (hpr : db.projects.find? (fun x => x.id = project_id) = some pr)
    (htot : pr.total_investment = 0)
    (hnn : ∀ p ∈ db.partners, 0 ≤ p.investment)
    (hsum : pr.total_investment = sumInvestments db.partners project_id) :
    totalInvestmentOf db project_id = 0
  ∧ (∀ r ∈ projectRows db project_id, r.investment = 0)
  ∧ (∃ ws, eligibleWeights (totalInvestmentOf db project_id) (projectRows db project_id)
        = .ok ws
      ∧ ∀ r ∈ projectRows db project_id, ¬ optPos r.performance_fee_rate →
          ¬ 0 < r.distribution_share → ∀ w, (r, w) ∉ ws)
  ∧ calculate_distribution db project_id A ≠ .error .zeroDivisionError := by
  have hT0 : totalInvestmentOf db project_id = 0 := by
    unfold totalInvestmentOf
    rw [hpr]
    exact htot
  have hz : ∀ r ∈ projectRows db project_id, r.investment = 0 := by
    intro r hr
    rw [mem_projectRows] at hr
    obtain ⟨p, hp, hpr2⟩ := List.mem_map.1 hr
    rw [← hpr2, rowOf_investment]
    have hs0 : sumInvestments db.partners project_id = 0 := by rw [← hsum, htot]
    exact sum_nonneg_zero _
      (fun x hx => by
        obtain ⟨q, hq, hqx⟩ := List.mem_map.1 hx
        rw [← hqx]
        exact hnn q (List.mem_of_mem_filter hq))
      hs0 p.investment (List.mem_map.2 ⟨p, hp, rfl⟩)
  have hno : ∀ r ∈ projectRows db project_id, ¬ 0 < r.investment := fun r hr => by
    rw [hz r hr]
    exact lt_irrefl 0
  obtain ⟨ws, hws⟩ := eligibleWeights_ok_of_rows (totalInvestmentOf db project_id) _ hno
  have hchar := eligibleWeights_ok_eq _ _ ws hws
  refine ⟨hT0, hz, ⟨ws, hws, ?_⟩, ?_⟩
  · intro r hr hperf hshare w hmem
    rw [hchar] at hmem
    obtain ⟨a, ha, hae⟩ := List.mem_filterMap.1 hmem
    have har : a = r := by
      have := carryRule_some_fst _ a _ hae
      simpa using this.symm
    rw [har] at hae
    unfold carryRule at hae
    rw [if_neg hperf, if_neg hshare, if_neg (hno r hr)] at hae
    exact Option.noConfusion hae
  · intro hcontra
    obtain ⟨l, hl⟩ := stage3_ok_of_elig (totalInvestmentOf db project_id)
      ((stage2 (totalInvestmentOf db project_id)
        (A - managementFee A (projectRows db project_id)) (projectRows db project_id)).2)
      (projectRows db project_id) ⟨ws, hws⟩
    simp only [calculate_distribution] at hcontra
    rw [hl] at hcontra
    simp only [except_bind_ok] at hcontra
    split at hcontra
    · exact Except.noConfusion hcontra
    · simp at hcontra

/-- Witness: C5 applied to the zero-total project — no division-by-zero. -/
theorem C5_zero_total_excludes_fallback_witness :
    calculate_distribution dbZeroTotal 1 100 ≠ .error .zeroDivisionError :=
  (C5_zero_total_excludes_fallback dbZeroTotal 1 100 ⟨1, "Z", "", 0⟩
    (by with_unfolding_all rfl) rfl (by with_unfolding_all decide)
    (by with_unfolding_all decide)).2.2.2

/-- Stage 3 on an empty row list always succeeds with no items. -/
theorem stage3_nil (T rem : ℚ) : stage3 T rem [] = .ok [] := by
  simp only [stage3, eligibleWeights, except_bind_ok, List.map_nil, List.sum_nil,
    lt_self_iff_false, if_false]
  split <;> rfl

/-- A project id absent from `projects` makes the joined row list empty when
the foreign keys hold (no partner row dangles). -/
theorem projectRows_nil (db : DB) (project_id : Nat)
    (hfk : ∀ p ∈ db.partners, ¬ p.project_id = project_id) :
    projectRows db project_id = [] := by
  unfold projectRows
  have hfilter : db.partners.filter (fun p => p.project_id = project_id) = [] :=
    List.filter_eq_nil_iff.2 fun p hp => by simpa using hfk p hp
  rw [hfilter]
  rfl

/-- Claim C6, counterexample. For a nonexistent project, `calculate_distribution`
does not fail fast with a ValidationError before Stage 1 — it runs all stages
and fails only at the Stage-4 INSERT with a foreign-key IntegrityError; and
called directly with amount 0 on an existing project, it does not fail at
all: it persists a Distribution record with `total_amount = 0`. -/
theorem C6_counterexample :
    calculate_distribution emptyDB 1 100 = .error .integrityError
  ∧ calculate_distribution emptyDB 1 100 ≠ .error .validationError
  ∧ (okD (calculate_distribution dbShopA 1 0) (dbShopA, dr0)).1.distributions
      = [{ id := 1, project_id := 1, total_amount := 0, details := [] }] := by
  refine ⟨by with_unfolding_all rfl, ?_, by with_unfolding_all rfl⟩
  rw [show calculate_distribution emptyDB 1 100 = .error .integrityError from by
    with_unfolding_all rfl]
  simp

/-- Claim C6, amended. The fail-fast amount check lives in the HTTP handler:
`handle_distribution` rejects `distributionAmount ≤ 0` with a ValidationError
before invoking the engine, so nothing is persisted; a missing project is not
detected before Stage 1 — `calculate_distribution` computes through all
stages with `total_investment = 0` and fails at the Stage-4 insert with a
foreign-key IntegrityError, so nothing is persisted in that case either. -/
theorem C6_failfast_amended :
    (∀ db project_id A, A ≤ 0 →
        handle_distribution db project_id A = .error .validationError)
  ∧ (∀ db project_id A,
        db.projects.find? (fun pr => pr.id = project_id) = none →
        (∀ p ∈ db.partners, ¬ p.project_id = project_id) →
        calculate_distribution db project_id A = .error .integrityError) := by
  constructor
  · intro db project_id A hA
    unfold handle_distribution
    rw [if_pos hA]
  · intro db project_id A hfind hfk
    have hT : totalInvestmentOf db project_id = 0 := by
      unfold totalInvestmentOf
      rw [hfind]
    simp only [calculate_distribution, projectRows_nil db project_id hfk, hT,
      stage3_nil, except_bind_ok]
    rw [if_neg]
    intro hany
    obtain ⟨x, hx1, hx2⟩ := List.any_eq_true.1 hany
    have := List.find?_eq_none.1 hfind x hx1
    exact this hx2

/-- Witness: C6 (amended) applied to a non-positive amount on an existing
project and to a distribution against a missing project. -/
theorem C6_failfast_amended_witness :
    handle_distribution dbShopA 1 0 = .error .validationError
  ∧ calculate_distribution emptyDB 2 100 = .error .integrityError :=
  ⟨C6_failfast_amended.1 dbShopA 1 0 (le_refl 0),
   C6_failfast_amended.2 emptyDB 2 100 (by with_unfolding_all rfl)
     (by with_unfolding_all decide)⟩

/-- Claim C10. For an existing project with zero partners and stored total 0 (as
every freshly created project has), a positive-amount distribution succeeds:
it persists a Distribution whose line-item list is empty, appends one audit
entry, and returns `management_fee = 0` and `remaining_amount` equal to the
full amount. -/
theorem C10_zero_partner_project_distribution (db : DB) (project_id : Nat) (A : ℚ)
    (pr : Project)
    (hpr : db.projects.find? (fun x => x.id = project_id) = some pr)
    (htot : pr.total_investment = 0)
    (hnop : ∀ p ∈ db.partners, ¬ p.project_id = project_id)
    (hA : 0 < A) :
    calculate_distribution db project_id A = .ok
      ({ db with
          distributions := db.distributions ++
            [{ id := db.next_distribution_id, project_id := project_id,
               total_amount := A, details := [] }],
          next_distribution_id := db.next_distribution_id + 1,
          logs := db.logs ++ [(project_id, "CALCULATE_DISTRIBUTION")] },
       { distribution_id := db.next_distribution_id, distribution_amount := A,
         management_fee := 0, remaining_amount := A, details := [] }) := by
  have hT : totalInvestmentOf db project_id = 0 := by
    unfold totalInvestmentOf
    rw [hpr]
    exact htot
  have hany : db.projects.any (fun x => x.id = project_id) = true := by
    rw [List.any_eq_true]
    refine ⟨pr, List.mem_of_find?_eq_some hpr, ?_⟩
    simpa using List.find?_some hpr
  simp only [calculate_distribution, projectRows_nil db project_id hnop, hT,
    stage3_nil, except_bind_ok]
  rw [if_pos hany]
  simp [managementFee, stage1Items, stage2, lt_self_iff_false, sub_zero]

/-- Witness: C10 applied to the freshly created "Shop A" project with
amount 100. -/
theorem C10_zero_partner_project_distribution_witness :
    calculate_distribution dbShopA 1 100 = .ok
      ({ dbShopA with
          distributions := dbShopA.distributions ++
            [{ id := dbShopA.next_distribution_id, project_id := 1,
               total_amount := 100, details := [] }],
          next_distribution_id := dbShopA.next_distribution_id + 1,
          logs := dbShopA.logs ++ [(1, "CALCULATE_DISTRIBUTION")] },
       { distribution_id := dbShopA.next_distribution_id, distribution_amount := 100,
         management_fee := 0, remaining_amount := 100, details := [] }) :=
  C10_zero_partner_project_distribution dbShopA 1 100 ⟨1, "Shop A", "", 0⟩
    (by with_unfolding_all rfl) rfl (by with_unfolding_all decide) (by norm_num)

/-- Claim C7. The end-to-end scenario: after creating "Shop A", adding
Alice (600) and Bob (400), creating tier "GP" with a 5% management fee and
assigning Alice to it with distribution_share 0, distributing 500 yields a
management fee of 25 attributed to Alice, 475 remaining after fees, a return
of capital of 475 split 285 to Alice and 190 to Bob, no carry items, and line
items summing to exactly 500. (Stage-2 items appear in the query's
NULLs-first priority order: Bob before Alice.) -/
theorem C7_end_to_end_waterfall :
    e2eDB.projects.map (fun pr => pr.total_investment) = [1000]
  ∧ e2eDB.partners.map (fun p => (p.name, p.investment, p.share_percentage))
      = [("Alice", 600, 60), ("Bob", 400, 40)]
  ∧ e2eRes.management_fee = 25
  ∧ e2eRes.details.filter (fun i => i.type = "management_fee")
      = [{ partner_id := 1, partner_name := "Alice", tier := some "GP",
           type := "management_fee", amount := 25, percentage := 5 }]
  ∧ 500 - e2eRes.management_fee = 475
  ∧ e2eRes.details.filter (fun i => i.type = "return_of_capital")
      = [{ partner_id := 2, partner_name := "Bob", tier := none,
           type := "return_of_capital", amount := 190, percentage := 40 },
         { partner_id := 1, partner_name := "Alice", tier := some "GP",
           type := "return_of_capital", amount := 285, percentage := 60 }]
  ∧ e2eRes.remaining_amount = 0
  ∧ e2eRes.details.filter (fun i => i.type = "performance_fee") = []
  ∧ (e2eRes.details.map fun i => i.amount).sum = 500 := by
  with_unfolding_all decide

/-- Witness: C1 applied to concrete add, update and delete runs on the
scenario project. -/
theorem C1_ledger_invariant_after_mutation_witness :
    (ledgerInvariant dbAlice 1 ∧ sharesSum100 dbAlice 1)
  ∧ (ledgerInvariant dbBobRaised 1 ∧ sharesSum100 dbBobRaised 1)
  ∧ (ledgerInvariant dbBobGone 1 ∧ sharesSum100 dbBobGone 1) :=
  ⟨C1_ledger_invariant_after_mutation.1 dbShopA 1 "Alice" (some 600) "" "" dbAlice 1
     (by with_unfolding_all rfl),
   C1_ledger_invariant_after_mutation.2.1 dbAliceBob 2 none (some 500) none none
     dbBobRaised ⟨2, 1, "Bob", 400, 40, "", ""⟩
     (by with_unfolding_all rfl) rfl (by with_unfolding_all rfl),
   C1_ledger_invariant_after_mutation.2.2 dbAliceBob 2 dbBobGone
     ⟨2, 1, "Bob", 400, 40, "", ""⟩
     (by with_unfolding_all rfl) (by with_unfolding_all rfl)⟩

end Invest
